import Mathlib

/-!
Verification development for the karpenter-core node-provisioning controller.

Quantities (`resource.Quantity`) are modelled as exact integers (`Int`) in the
natural unit of each resource (millicores for cpu, Mi for memory, counts for
pods); `v1.ResourceList` is modelled as an association list from resource names
to integers, where a missing key denotes the zero quantity, matching Go's map
zero-value semantics.  Floating-point steps in the source (`AsApproximateFloat64`,
`math.Ceil`, `r * percentage`) are modelled in exact rational / integer
arithmetic.
-/

namespace KarpSpec

/-- A resource quantity: exact integer in the resource's natural unit. -/
abbrev Quantity := Int

/-- `v1.ResourceList`: association list, resource name to quantity. -/
abbrev ResourceList := List (String × Quantity)

/-- Map lookup with Go's zero-value semantics: a missing key reads as 0. -/
def lookupQ (r : ResourceList) (k : String) : Quantity :=
  match r.find? (fun kv => kv.1 == k) with
  | some kv => kv.2
  | none => 0

/-- The set of keys present in a resource list. -/
def keysRL (r : ResourceList) : List String := r.map (·.1)

/-- Key membership as a Boolean (Go `_, ok := m[k]`). -/
def hasKey (r : ResourceList) (k : String) : Bool := (r.find? (fun kv => kv.1 == k)).isSome

/-! ## 4.1 Instance-type overhead derivation: `pods` (src/pkg/cloudprovider/helper.go) -/

/-- KubeletConfiguration fields used by `pods`: `MaxPods` and `PodsPerCore` are
optional int32 pointers. -/
structure KubeletConfig where
  maxPods : Option Int
  podsPerCore : Option Int
deriving DecidableEq, Repr

/-- `ptr.Int32Value`: dereference an optional integer, nil reads as 0. -/
def int32Value (x : Option Int) : Int := x.getD 0

/-- `pods(instanceType, kc)` from src/pkg/cloudprovider/helper.go lines 121-135:
with no kubelet configuration the intrinsic pods capacity is returned; otherwise
`count` starts at the intrinsic capacity, is overwritten by `MaxPods` when set,
and is then upper-bounded by `PodsPerCore * cpus` when `PodsPerCore > 0`.
`itPods` is the instance type's intrinsic `Capacity[pods]`, `itCpu` its
`Capacity[cpu].Value()` in whole cores. -/
def pods (itPods itCpu : Int) (kc : Option KubeletConfig) : Int :=
  match kc with
  | none => itPods
  | some kc =>
    let count := itPods
    let count := match kc.maxPods with
      | some m => m
      | none => count
    if int32Value kc.podsPerCore > 0 then
      min (int32Value kc.podsPerCore * itCpu) count
    else count

/-- The pods formula exactly as the claim states it: the minimum of the
intrinsic pods ceiling, `max_pods` (when set), and `pods_per_core * vcpus`
(when `pods_per_core > 0`). -/
def podsClaimFormula (itPods itCpu : Int) (kc : KubeletConfig) : Int :=
  let withMax := match kc.maxPods with
    | some m => min itPods m
    | none => itPods
  if int32Value kc.podsPerCore > 0 then
    min (int32Value kc.podsPerCore * itCpu) withMax
  else withMax

/-- The amended pods formula: when `max_pods` is set it replaces (rather than
being min-ed with) the intrinsic pods ceiling; the `pods_per_core * vcpus`
bound still applies when `pods_per_core > 0`. -/
def podsAmendedFormula (itPods itCpu : Int) (kc : KubeletConfig) : Int :=
  let base := kc.maxPods.getD itPods
  if int32Value kc.podsPerCore > 0 then
    min (int32Value kc.podsPerCore * itCpu) base
  else base

/-! ## 4.1 Eviction thresholds: `ComputeThreshold` (src/pkg/cloudprovider/overhead.go) -/

/-- An eviction-signal value: the source dispatches on whether the string ends
in a percent sign; a percentage carries its parsed numeric value
(`functional.ParsePercentage`, modelled exactly as a rational), otherwise the
string parses as an absolute quantity. -/
inductive SignalValue where
  | percent (p : ℚ)
  | absolute (q : Quantity)
deriving DecidableEq, Repr

/-- `ComputeThreshold(base, v)` from src/pkg/cloudprovider/overhead.go lines
29-40: for a percentage `p`, `p == 100` is first replaced by 0, then the result
is `ceil(base / 100 * p)` (the float computation is modelled exactly over the
rationals); a non-percentage value is returned as parsed. -/
def ComputeThreshold (base : Quantity) (v : SignalValue) : Quantity :=
  match v with
  | .percent p =>
    let p := if p = 100 then 0 else p
    Int.ceil ((base : ℚ) / 100 * p)
  | .absolute q => q

/-- The threshold exactly as the claim states it: `ceil(C * p / 100)` for a
percentage `p` with the special case `p = 100` giving 0; an absolute value is
returned unchanged. -/
def thresholdClaimFormula (base : Quantity) (v : SignalValue) : Quantity :=
  match v with
  | .percent p => if p = 100 then 0 else Int.ceil ((base : ℚ) * p / 100)
  | .absolute q => q

/-! ## 4.1 `KubeReserved` (src/pkg/cloudprovider/overhead.go lines 51-79) -/

/-- One pass of the kube-reserved cpu loop for the range `[s, e)` at percentage
`n / d`: when `cpu >= s` the covered width `r` is `cpu - s` if `cpu < e` and
`e - s` otherwise, contributing `int64(r * percentage)` millicores (exact
integer truncation of the rational product; `r >= 0` so truncation is floor). -/
def cpuRangeOverhead (cpu s e n d : Int) : Int :=
  if cpu ≥ s then (if cpu < e then cpu - s else e - s) * n / d else 0

/-- The accumulated kube-reserved cpu in millicores: the four ranges of the
source loop, `[0,1000) @ 6%`, `[1000,2000) @ 1%`, `[2000,4000) @ 0.5%`,
`[4000, 1<<31) @ 0.25%`. -/
def kubeReservedCpu (cpu : Int) : Int :=
  cpuRangeOverhead cpu 0 1000 6 100 +
  cpuRangeOverhead cpu 1000 2000 1 100 +
  cpuRangeOverhead cpu 2000 4000 5 1000 +
  cpuRangeOverhead cpu 4000 (2 ^ 31) 25 10000

/-- `KubeReserved(pods, cpus)`: memory `11 * pods + 255` (Mi), default
ephemeral-storage 1 (Gi), and the cpu key (millicores) present whenever at
least one range fired, i.e. whenever `cpus.MilliValue() >= 0`. -/
def KubeReserved (podsQ cpuMilli : Int) : ResourceList :=
  let base : ResourceList := [("memory", 11 * podsQ + 255), ("ephemeral-storage", 1)]
  if cpuMilli ≥ 0 then base ++ [("cpu", kubeReservedCpu cpuMilli)] else base

/-- The width of cpu band `[lo, hi)` covered by `c` millicores. -/
def bandWidth (c lo hi : Int) : Int := max (min c hi - lo) 0

/-- The kube-reserved cpu exactly as the claim states it: 6% of the first 1000
millicores, 1% of the next 1000, 0.5% of the next 2000, and 0.25% of everything
beyond 4000 (unbounded), each truncated to whole millicores. -/
def cpuClaimFormula (c : Int) : Int :=
  bandWidth c 0 1000 * 6 / 100 +
  bandWidth c 1000 2000 * 1 / 100 +
  bandWidth c 2000 4000 * 5 / 1000 +
  max (c - 4000) 0 * 25 / 10000

/-- The amended kube-reserved cpu: as the claim states it except that the last
band is `[4000, 2^31)` millicores, the sentinel upper bound used by the source
loop, rather than unbounded. -/
def cpuAmendedFormula (c : Int) : Int :=
  bandWidth c 0 1000 * 6 / 100 +
  bandWidth c 1000 2000 * 1 / 100 +
  bandWidth c 2000 4000 * 5 / 1000 +
  bandWidth c 4000 (2 ^ 31) * 25 / 10000

/-! ## 4.2 Requirements algebra (src/pkg/scheduling/requirements.go)

The `Requirements` map operations (`Add`, `Get`, `Keys`, `Has`, `Compatible`,
`Intersects`, `FlexibleCompatible`) are embedded from the source.  The
single-key `Requirement` type itself (operators, `Intersection`, `Len`) is not
under src/ and is modelled from the spec. -/

/-- The node-selector operators of the requirements algebra. -/
inductive NodeSelectorOperator where
  | opIn
  | opNotIn
  | opExists
  | opDoesNotExist
  | opGt
  | opLt
deriving DecidableEq, Repr

/-- Modelled from the spec: a single-key Requirement, one of `In{values}`,
`NotIn{values}`, `Exists`, `DoesNotExist`, `Gt{n}`, `Lt{n}`, normalized as a
value set (`complement = true` means the listed values are excluded) plus
optional numeric bounds; this type and its operations are not under src/. -/
structure Requirement where
  key : String
  complement : Bool
  values : List String
  greaterThan : Option Int := none
  lessThan : Option Int := none
deriving DecidableEq, Repr

/-- Modelled from the spec: construct a Requirement from an operator and value
list; `Gt`/`Lt` read their single numeric value. -/
def NewRequirement (key : String) (op : NodeSelectorOperator) (vals : List String) : Requirement :=
  match op with
  | .opIn => ⟨key, false, vals, none, none⟩
  | .opNotIn => ⟨key, true, vals, none, none⟩
  | .opExists => ⟨key, true, [], none, none⟩
  | .opDoesNotExist => ⟨key, false, [], none, none⟩
  | .opGt => ⟨key, true, [], (vals.head?.bind String.toNat?).map Int.ofNat, none⟩
  | .opLt => ⟨key, true, [], none, (vals.head?.bind String.toNat?).map Int.ofNat⟩

/-- Modelled from the spec: whether a concrete value satisfies the numeric
bounds of a requirement. -/
def boundsOk (gt lt : Option Int) (v : String) : Bool :=
  (match gt with
   | some g => match v.toNat? with
     | some n => decide ((n : Int) > g)
     | none => false
   | none => true) &&
  (match lt with
   | some l => match v.toNat? with
     | some n => decide ((n : Int) < l)
     | none => false
   | none => true)

/-- Modelled from the spec: `Intersection` distributes by operator — allowed
sets intersect, excluded sets union, numeric bounds tighten, and surviving
allowed values are filtered by the merged bounds. -/
def Requirement.Intersection (r q : Requirement) : Requirement :=
  let gt := match r.greaterThan, q.greaterThan with
    | some a, some b => some (max a b)
    | some a, none => some a
    | none, b => b
  let lt := match r.lessThan, q.lessThan with
    | some a, some b => some (min a b)
    | some a, none => some a
    | none, b => b
  let comp := r.complement && q.complement
  let vals :=
    if r.complement then
      if q.complement then r.values ++ q.values.filter (fun v => !r.values.contains v)
      else q.values.filter (fun v => !r.values.contains v)
    else
      if q.complement then r.values.filter (fun v => !q.values.contains v)
      else r.values.filter (fun v => q.values.contains v)
  let vals := if comp then vals else vals.filter (boundsOk gt lt)
  ⟨r.key, comp, vals, gt, lt⟩

/-- Modelled from the spec: a requirement allows no value at all exactly when
it is a non-complement requirement with an empty allowed set (`Len() == 0`;
complement requirements always have a huge `Len`). -/
def Requirement.lenZero (r : Requirement) : Bool :=
  !r.complement && r.values.isEmpty

/-- Modelled from the spec: the operator a requirement reports — excluded sets
report `NotIn` (or `Exists` when nothing is excluded), allowed sets report `In`
(or `DoesNotExist` when empty). -/
def Requirement.Operator (r : Requirement) : NodeSelectorOperator :=
  if r.complement then (if r.values.isEmpty then .opExists else .opNotIn)
  else (if r.values.isEmpty then .opDoesNotExist else .opIn)

/-- `Requirements`: the key-to-requirement map, as an association list with
keys kept unique by `Add`. -/
abbrev Requirements := List Requirement

/-- `Requirements.Get` (src lines 137-143): a key that is not defined reads as
an `Exists` requirement allowing any value. -/
def getReq (rs : Requirements) (k : String) : Requirement :=
  match rs.find? (fun r => r.key == k) with
  | some r => r
  | none => NewRequirement k .opExists []

/-- `Requirements.Has`. -/
def hasReq (rs : Requirements) (k : String) : Bool :=
  (rs.find? (fun r => r.key == k)).isSome

/-- `Requirements.Keys`. -/
def reqKeys (rs : Requirements) : List String := rs.map (·.key)

/-- `Requirements.Add` for a single requirement (src lines 110-117): an
incoming requirement is intersected with the existing requirement on the same
key. -/
def addReq (rs : Requirements) (nr : Requirement) : Requirements :=
  match rs.find? (fun r => r.key == nr.key) with
  | some existing => rs.map (fun r => if r.key == nr.key then nr.Intersection existing else r)
  | none => rs ++ [nr]

/-- `NewRequirements` (src lines 34-40). -/
def NewRequirements (l : List Requirement) : Requirements := l.foldl addReq []

/-- Whether an operator is `NotIn` or `DoesNotExist`. -/
def opIsNotInOrDNE (op : NodeSelectorOperator) : Bool :=
  op == .opNotIn || op == .opDoesNotExist

/-- `Requirements.Intersects` (src lines 225-242), as the list of keys for
which an incompatibility error is reported: keys in both maps whose
requirements have an empty intersection, except where the incoming operator is
`NotIn`/`DoesNotExist` and the existing operator is also `NotIn`/`DoesNotExist`. -/
def intersectsErrKeys (r q : Requirements) : List String :=
  (reqKeys r).filter (fun k =>
    hasReq q k &&
    (Requirement.lenZero ((getReq r k).Intersection (getReq q k)) &&
     !(opIsNotInOrDNE (getReq q k).Operator && opIsNotInOrDNE (getReq r k).Operator)))

/-- `Requirements.Compatible` (src lines 146-156), as the list of keys reported:
custom (non-well-known) incoming keys must be defined on the existing side
unless their operator is `NotIn`/`DoesNotExist`; then the `Intersects` errors
are appended. -/
def compatibleErrKeys (wellKnown : List String) (r q : Requirements) : List String :=
  (reqKeys q).filter (fun k =>
    !(wellKnown.contains k) &&
    !(hasReq r k || opIsNotInOrDNE (getReq q k).Operator))
  ++ intersectsErrKeys r q

/-- `FlexibleRequirements`: an OR-of-AND requirements form. -/
abbrev FlexibleRequirements := List Requirements

/-- `Requirements.FlexibleCompatible` (src lines 158-169): keep only the terms
compatible with the existing requirements; fail when none survives. -/
def FlexibleCompatible (wellKnown : List String) (r : Requirements)
    (flex : FlexibleRequirements) : Option FlexibleRequirements :=
  let newReqs := flex.filter (fun reqs => (compatibleErrKeys wellKnown r reqs).isEmpty)
  if newReqs.isEmpty then none else some newReqs

/-! ## Resource-list helpers (pkg/utils/resources, not under src/) -/

/-- Write a key's value, replacing an existing entry or appending. -/
def upsertRL (r : ResourceList) (k : String) (v : Quantity) : ResourceList :=
  if hasKey r k then r.map (fun kv => if kv.1 == k then (k, v) else kv) else r ++ [(k, v)]

/-- Modelled from the spec: `resources.Merge` — the per-resource sum of two
resource lists (keys union, values added). -/
def mergeRL (a b : ResourceList) : ResourceList :=
  b.foldl (fun acc kv => upsertRL acc kv.1 (lookupQ acc kv.1 + kv.2)) a

/-- Modelled from the spec: `resources.Fits candidate total` — every resource
requested by `candidate` is at most the corresponding quantity in `total`
(missing keys read as 0). -/
def fitsRL (candidate total : ResourceList) : Bool :=
  candidate.all (fun kv => kv.2 ≤ lookupQ total kv.1)

/-! ## 4.4 `ExistingNode.Add` (src/unnamed/part_001 lines 153-208)

The collaborators that are not under src/ — taint toleration, host-port and
volume usage/limits, `NewPodRequirements`, the narrowing `Values()` of a
flexible requirements set, and the topology tracker — enter as explicit
outcomes/updates in `AddChecks`; `Compatible` / `FlexibleCompatible` and the
requirements bookkeeping are computed by the embedded requirements algebra. -/

/-- Topology tracker counts (domain to count), mutated only by `Record`. -/
abbrev TopoCounts := List (String × Int)

/-- Outcomes and state updates of the opaque collaborators for one
`ExistingNode.Add(ctx, pod)` call. -/
structure AddChecks where
  wellKnown : List String
  toleratesTaints : Bool
  hostPortsOk : Bool
  volumeMountCount : Option Int
  volumeExceedsLimits : Int → Bool
  podReqs : FlexibleRequirements
  flexValues : FlexibleRequirements → List Requirement
  topoAddRequirements : FlexibleRequirements → Requirements → Option Requirements
  topoRecord : TopoCounts → Requirements → TopoCounts
  hostPortAdd : List String → List String
  volumeAdd : List String → List String

/-- The scheduler-local view of an existing state node: `requests` starts at
the clamped remaining daemon-set resources and accumulates placed pods;
`available` is the state node's `Available()` — modelled from the spec as
allocatable minus the requests of pods already scheduled to the node. -/
structure ExistingNode where
  podNames : List String
  requests : ResourceList
  requirements : Requirements
  available : ResourceList
  topo : TopoCounts
  hostPortsUsed : List String
  volumesUsed : List String
deriving DecidableEq, Repr

/-- `ExistingNode.Add` (src/unnamed/part_001 lines 153-208), transcribed in
source order: taint tolerance, host ports, volume usage and limits, resource
fit of the merged requests against `Available()`, flexible node-affinity
compatibility, topology admission and compatibility; all node mutations
(pods, requests, requirements, topology record, host-port and volume usage)
happen only in the final success step. -/
def ExistingNode.addPod (c : AddChecks) (podName : String) (podRequests : ResourceList)
    (n : ExistingNode) : ExistingNode × Option String :=
  if !c.toleratesTaints then (n, some "does not tolerate taints") else
  if !c.hostPortsOk then (n, some "host port conflict") else
  match c.volumeMountCount with
  | none => (n, some "volume usage validation failed")
  | some cnt =>
    if c.volumeExceedsLimits cnt then (n, some "would exceed node volume limits") else
    let requests := mergeRL n.requests podRequests
    if !fitsRL requests n.available then (n, some "exceeds node resources") else
    let nodeRequirements := NewRequirements n.requirements
    match FlexibleCompatible c.wellKnown nodeRequirements c.podReqs with
    | none => (n, some "incompatible with node affinity")
    | some reqs =>
      let nodeRequirements := (c.flexValues reqs).foldl addReq nodeRequirements
      match c.topoAddRequirements reqs nodeRequirements with
      | none => (n, some "topology admission failed")
      | some topologyRequirements =>
        if !(compatibleErrKeys c.wellKnown nodeRequirements topologyRequirements).isEmpty then
          (n, some "incompatible with topology requirements")
        else
          ({ podNames := n.podNames ++ [podName]
             requests := requests
             requirements := topologyRequirements.foldl addReq nodeRequirements
             available := n.available
             topo := c.topoRecord n.topo (topologyRequirements.foldl addReq nodeRequirements)
             hostPortsUsed := c.hostPortAdd n.hostPortsUsed
             volumesUsed := c.volumeAdd n.volumesUsed }, none)

/-! ## 4.4 Scheduler remaining limits
(src/pkg/controllers/provisioning/scheduling/scheduler.go lines 217-267 and
329-369) -/

/-- The scheduler's view of an instance type: name plus `Capacity`. -/
structure InstanceTypeC where
  name : String
  capacity : ResourceList
deriving DecidableEq, Repr

/-- `filterByRemainingResources` (scheduler.go lines 352-369): an instance type
is viable unless some resource's capacity exceeds the remaining quantity for
that resource. -/
def filterByRemainingResources (its : List InstanceTypeC) (remaining : ResourceList) :
    List InstanceTypeC :=
  its.filter (fun it => remaining.all (fun kv => lookupQ it.capacity kv.1 ≤ kv.2))

/-- One step of `resources.MaxResources` (modelled from the spec): record a
quantity when its key is new or it exceeds the recorded one. -/
def upsertMax (acc : ResourceList) (kv : String × Quantity) : ResourceList :=
  if hasKey acc kv.1 then
    (if kv.2 > lookupQ acc kv.1 then upsertRL acc kv.1 kv.2 else acc)
  else acc ++ [kv]

/-- Modelled from the spec: `resources.MaxResources` — the element-wise
maximum, per resource, over a list of resource lists. -/
def maxResources (rls : List ResourceList) : ResourceList :=
  rls.foldl (fun acc rl => rl.foldl upsertMax acc) []

/-- `subtractMax` (scheduler.go lines 329-350): with a non-empty instance-type
list, subtract from each remaining entry the element-wise maximum capacity
over the instance types; an empty list leaves `remaining` unchanged. -/
def subtractMax (remaining : ResourceList) (its : List InstanceTypeC) : ResourceList :=
  if its.isEmpty then remaining
  else
    remaining.map (fun kv => (kv.1, kv.2 - lookupQ (maxResources (its.map (·.capacity))) kv.1))

/-- The per-pool remaining-resources map `s.remainingResources`. -/
abbrev PoolResources := List (String × ResourceList)

/-- Go map read `s.remainingResources[name]` with presence flag. -/
def lookupPool (m : PoolResources) (p : String) : Option ResourceList :=
  (m.find? (fun kv => kv.1 == p)).map (·.2)

/-- Go map write `s.remainingResources[name] = rl`. -/
def setPool (m : PoolResources) (p : String) (rl : ResourceList) : PoolResources :=
  if (m.find? (fun kv => kv.1 == p)).isSome then
    m.map (fun kv => if kv.1 == p then (p, rl) else kv)
  else m ++ [(p, rl)]

/-- A machine template as the scheduler sees it: owning pool name and the
pool's instance-type catalog `s.instanceTypes[ownerName]`. -/
structure MachineTemplateC where
  pool : String
  instanceTypes : List InstanceTypeC

/-- The outcome of the opaque parts of `Scheduler.add` for one pod:
`placedOnExisting` records that some existing node or already-proposed claim
accepted the pod (scheduler.go lines 218-233, which do not touch
`remainingResources`); `claimAdd pool its` is `NodeClaim.Add` on a fresh claim
built from the filtered instance types (not under src/), returning the claim's
`InstanceTypeOptions` on success. -/
structure AddOutcome where
  placedOnExisting : Bool
  claimAdd : String → List InstanceTypeC → Option (List InstanceTypeC)

/-- The scheduler state that `Scheduler.add` mutates: the per-pool remaining
resources and the proposed claims' instance-type options. -/
structure SchedState where
  remainingResources : PoolResources
  newNodeClaims : List (List InstanceTypeC)

/-- The template loop of `Scheduler.add` (scheduler.go lines 236-266): filter
the pool's instance types by its remaining resources when present (skipping
the template when none survive), attempt the claim, and on success append the
claim and charge `subtractMax` of its options against the pool. -/
def schedulerAddLoop (oc : AddOutcome) : List MachineTemplateC → SchedState → SchedState
  | [], st => st
  | t :: rest, st =>
    match lookupPool st.remainingResources t.pool with
    | some remaining =>
      let its := filterByRemainingResources t.instanceTypes remaining
      if its.isEmpty then schedulerAddLoop oc rest st
      else
        match oc.claimAdd t.pool its with
        | none => schedulerAddLoop oc rest st
        | some opts =>
          { remainingResources := setPool st.remainingResources t.pool (subtractMax remaining opts)
            newNodeClaims := st.newNodeClaims ++ [opts] }
    | none =>
      match oc.claimAdd t.pool t.instanceTypes with
      | none => schedulerAddLoop oc rest st
      | some opts =>
        { remainingResources := setPool st.remainingResources t.pool (subtractMax [] opts)
          newNodeClaims := st.newNodeClaims ++ [opts] }

/-- `Scheduler.add` (scheduler.go lines 217-267): placement on an existing node
or an already-proposed claim leaves the remaining resources untouched;
otherwise the template loop runs. -/
def schedulerAdd (templates : List MachineTemplateC) (oc : AddOutcome) (st : SchedState) :
    SchedState :=
  if oc.placedOnExisting then st else schedulerAddLoop oc templates st

/-- The `Solve` loop (scheduler.go lines 129-176) restricted to its effect on
the remaining resources: one `Scheduler.add` per processed pod. -/
def solveRemaining (templates : List MachineTemplateC) (outs : List AddOutcome)
    (st : SchedState) : SchedState :=
  outs.foldl (fun s oc => schedulerAdd templates oc s) st

/-- All quantities of a resource list are non-negative. -/
def nonNegRL (rl : ResourceList) : Prop := ∀ kv ∈ rl, 0 ≤ kv.2

/-- Every instance-type option a `NodeClaim.Add` success can report has
non-negative capacities (instance-type capacities are physical resource
amounts, and the options are a subset of the provider catalog). -/
def outcomeCapsNonNeg (oc : AddOutcome) : Prop :=
  ∀ p its opts, oc.claimAdd p its = some opts → ∀ it ∈ opts, nonNegRL it.capacity

/-- The remaining quantity of resource `k` for pool `p` (an absent pool reads
as the empty list, i.e. quantity 0). -/
def poolLookupQ (m : PoolResources) (p k : String) : Quantity :=
  lookupQ ((lookupPool m p).getD []) k

/-! ## 4.6 Launch reconciler (src/pkg/controllers/nodeclaim/lifecycle/launch.go
lines 199-284) -/

/-- A key-value map (labels / annotations), as an association list. -/
abbrev KVList := List (String × String)

/-- `lo.Assign` for two maps: right-biased merge (later keys override). -/
def assignKV (a b : KVList) : KVList :=
  b.foldl (fun acc kv =>
    if (acc.find? (fun x => x.1 == kv.1)).isSome then
      acc.map (fun x => if x.1 == kv.1 then kv else x)
    else acc ++ [kv]) a

/-- An offering `(instance-type, zone, capacity-type)` named by an
insufficient-capacity error. -/
structure Offering where
  instanceType : String
  zone : String
  capacityType : String
deriving DecidableEq, Repr

/-- The claim object returned by a successful cloud `Create`. -/
structure CreatedNodeClaim where
  labels : KVList
  annots : KVList
  providerID : String
  capacity : ResourceList
  allocatable : ResourceList
deriving DecidableEq, Repr

/-- The result of the cloud provider's `Create(ctx, nodeClaim)` call. -/
inductive CreateResult where
  | created (c : CreatedNodeClaim)
  | insufficientCapacity (off : Offering)
  | otherError (msg : String)
deriving DecidableEq, Repr

/-- A condition value on a claim's status. -/
inductive CondValue where
  | unset
  | condTrue
  | condFalse (reason : String)
deriving DecidableEq, Repr

/-- The NodeClaim fields touched by the launch reconciler; `reqLabels` stands
for the single-value resolved labels of `spec.Requirements`. -/
structure NodeClaimC where
  labels : KVList
  annots : KVList
  reqLabels : KVList
  providerID : String
  capacity : ResourceList
  allocatable : ResourceList
  launched : CondValue
deriving DecidableEq, Repr

/-- `PopulateNodeDetails` (launch.go lines 265-277): labels are the right-biased
merge of the cloud-resolved labels, the requirement-resolved labels, and the
user-defined claim labels; annotations merge right-biased; provider-id,
allocatable and capacity are copied from the created claim. -/
def PopulateNodeDetails (nodeClaim : NodeClaimC) (retrieved : CreatedNodeClaim) : NodeClaimC :=
  { nodeClaim with
    labels := assignKV (assignKV retrieved.labels nodeClaim.reqLabels) nodeClaim.labels
    annots := assignKV nodeClaim.annots retrieved.annots
    providerID := retrieved.providerID
    allocatable := retrieved.allocatable
    capacity := retrieved.capacity }

/-- The observable outcome of one `Launch.Reconcile` pass. -/
structure LaunchOutcome where
  nodeClaim : NodeClaimC
  deletedClaim : Bool
  recordedUnavailable : List Offering
  returnsError : Bool
  uidCacheWrite : Option CreatedNodeClaim
deriving DecidableEq, Repr

/-- `Launch.Reconcile` (launch.go lines 199-263): an already-launched claim is
left alone; otherwise the per-UID cache is consulted and on a miss the cloud
`Create` runs — insufficient capacity deletes the claim and returns no error,
any other failure marks `Launched=false` with reason `LaunchFailed` and
returns the error, and success caches the result, populates the claim and
marks `Launched=true`.  The entry recorded in the unavailable-offerings cache
on insufficient capacity is modelled from the spec: that cache lives in the
cloud provider, outside this repository's src/. -/
def launchReconcile (uidCache : Option CreatedNodeClaim) (createRes : CreateResult)
    (nodeClaim : NodeClaimC) : LaunchOutcome :=
  if nodeClaim.launched = .condTrue then ⟨nodeClaim, false, [], false, none⟩ else
  match uidCache with
  | some created =>
    ⟨{ PopulateNodeDetails nodeClaim created with launched := .condTrue },
      false, [], false, some created⟩
  | none =>
    match createRes with
    | .insufficientCapacity off => ⟨nodeClaim, true, [off], false, none⟩
    | .otherError _ =>
      ⟨{ nodeClaim with launched := .condFalse "LaunchFailed" }, false, [], true, none⟩
    | .created created =>
      ⟨{ PopulateNodeDetails nodeClaim created with launched := .condTrue },
        false, [], false, some created⟩

/-! ## 4.6 Launch timeout (src/pkg/controllers/machine/lifecycle/launch_timeout.go
lines 36-64) -/

/-- The launched status condition as the reconciler reads it: absent, or
present with its truth value and `LastTransitionTime` (seconds). -/
inductive CondState where
  | absent
  | present (isTrue : Bool) (lastTransition : Int)
deriving DecidableEq, Repr

/-- The controller-runtime result of one reconcile pass. -/
inductive ReconcileAction where
  | done
  | requeue
  | requeueAfter (d : Int)
  | deleteClaim
deriving DecidableEq, Repr

/-- `launchTTL = 2 minutes`, in seconds. -/
def launchTTL : Int := 120

/-- `LaunchTimeout.Reconcile` (launch_timeout.go lines 40-64), in source order:
a true `Launched` condition ends the pass; a missing condition requeues; before
the TTL has elapsed since the condition's last transition the claim is requeued
for the remainder; otherwise the claim is deleted. -/
def launchTimeoutReconcile (now : Int) (launched : CondState) : ReconcileAction :=
  match launched with
  | .present true _ => .done
  | .absent => .requeue
  | .present false t =>
    if now - t < launchTTL then .requeueAfter (launchTTL - (now - t))
    else .deleteClaim

/-- Whether a condition state is a true condition. -/
def condIsTrue : CondState → Bool
  | .present true _ => true
  | _ => false

/-- A machine as the claim sees it: creation timestamp and launched condition. -/
structure MachineC where
  creationTime : Int
  launched : CondState
deriving DecidableEq, Repr

/-- The launch-timeout behaviour exactly as the claim states it, measured from
claim creation: a not-yet-launched claim is deleted once 2 minutes have passed
since creation, never deleted when `Launched` is true, and only requeued
before the 2 minutes elapse. -/
def launchTimeoutClaimSpec (now : Int) (m : MachineC) : Prop :=
  (condIsTrue m.launched = true →
    launchTimeoutReconcile now m.launched ≠ .deleteClaim) ∧
  (condIsTrue m.launched = false → now - m.creationTime ≥ launchTTL →
    launchTimeoutReconcile now m.launched = .deleteClaim) ∧
  (now - m.creationTime < launchTTL →
    launchTimeoutReconcile now m.launched ≠ .deleteClaim)

/-! ## 4.6 Registration reconciler (src/unnamed/part_013 lines 42-78) -/

/-- The NodeClaim fields touched by the registration reconciler. -/
structure RegClaim where
  registered : CondValue
  launched : CondValue
  nodeName : Option String
deriving DecidableEq, Repr

/-- The result of `nodeclaimutil.NodeForNodeClaim`
(src/pkg/utils/nodeclaim/nodeclaim.go lines 143-155): the unique matching node,
a not-found error, a duplicate-node error when more than one node matches the
claim's provider-id, or a transport error from the list call. -/
inductive NodeLookupResult where
  | foundNode (name : String)
  | nodeNotFound
  | duplicateNodes
  | listError
deriving DecidableEq, Repr

/-- The observable outcome of one `Registration.Reconcile` pass: the updated
claim, whether an error is returned, and the node written to by `syncNode`
(ownership, finalizer, taints, labels, annotations), if any. -/
structure RegOutcome where
  claim : RegClaim
  returnsError : Bool
  patchedNode : Option String
deriving DecidableEq, Repr

/-- `Registration.Reconcile` (src/unnamed/part_013 lines 42-78): an already
registered claim is left alone; a claim whose `Launched` is not true is marked
`Registered=false` with reason `NodeNotLaunched`; then the node lookup by
provider-id is dispatched — not-found marks `NodeNotFound`, a duplicate marks
`MultipleNodesFound` with no node bound, a transport error is returned, and a
unique match syncs the node and marks `Registered=true` with the node name
recorded. -/
def registrationReconcile (claim : RegClaim) (lookupRes : NodeLookupResult)
    (syncFails : Bool) : RegOutcome :=
  if claim.registered = .condTrue then ⟨claim, false, none⟩ else
  if claim.launched ≠ .condTrue then
    ⟨{ claim with registered := .condFalse "NodeNotLaunched" }, false, none⟩
  else
    match lookupRes with
    | .nodeNotFound => ⟨{ claim with registered := .condFalse "NodeNotFound" }, false, none⟩
    | .duplicateNodes =>
      ⟨{ claim with registered := .condFalse "MultipleNodesFound" }, false, none⟩
    | .listError => ⟨claim, true, none⟩
    | .foundNode n =>
      if syncFails then ⟨claim, true, none⟩
      else ⟨{ claim with registered := .condTrue, nodeName := some n }, false, some n⟩

/-! ## Theorems -/

/-- C1: `ExistingNode.Add` succeeds only if the merged resource requests —
the remaining daemon-set resources plus all previously placed pods (both
accumulated in `requests`) plus this pod — fit, per resource, within the
node's available resources; on success the accumulated requests become exactly
that merge, so no placement exceeds allocatable minus daemon overhead minus
already-scheduled requests. -/
theorem existingNode_add_fits (c : AddChecks) (podName : String) (podRequests : ResourceList)
    (n n2 : ExistingNode) (h : ExistingNode.addPod c podName podRequests n = (n2, none)) :
    fitsRL (mergeRL n.requests podRequests) n.available = true ∧
    n2.requests = mergeRL n.requests podRequests := by
  unfold ExistingNode.addPod at h
  repeat' split at h
  all_goals
    (try (cases hf : fitsRL (mergeRL n.requests podRequests) n.available <;> simp [hf] at h))
  all_goals (repeat' split at h)
  all_goals simp_all
  all_goals (rw [← h])

/-- C1 witness: a concrete successful placement. -/
theorem existingNode_add_fits_witness :
    fitsRL (mergeRL [("cpu", 1)] [("cpu", 1)]) [("cpu", 2)] = true ∧
    (ExistingNode.mk ["p"] [("cpu", 2)] [] [("cpu", 2)] [] [] []).requests =
      mergeRL [("cpu", 1)] [("cpu", 1)] :=
  existingNode_add_fits
    ⟨[], true, true, some 0, fun _ => false, [[]], fun _ => [], fun _ _ => some [],
      fun t _ => t, id, id⟩
    "p" [("cpu", 1)]
    ⟨[], [("cpu", 1)], [], [("cpu", 2)], [], [], []⟩
    ⟨["p"], [("cpu", 2)], [], [("cpu", 2)], [], [], []⟩
    (by decide)

/-- C10: when `ExistingNode.Add` returns an error the node is left exactly as
it was — pods, accumulated requests, requirements, host-port usage, volume
usage and topology counts are all unchanged; mutations happen only after every
check has passed. -/
theorem existingNode_add_error_no_mutation (c : AddChecks) (podName : String)
    (podRequests : ResourceList) (n n2 : ExistingNode) (e : String)
    (h : ExistingNode.addPod c podName podRequests n = (n2, some e)) :
    n2 = n := by
  unfold ExistingNode.addPod at h
  repeat' split at h
  all_goals
    (try (cases hf : fitsRL (mergeRL n.requests podRequests) n.available <;> simp [hf] at h))
  all_goals (repeat' split at h)
  all_goals simp_all

/-- C10 witness: a concrete failing placement (pod does not tolerate the
node's taints) leaves the node state intact. -/
theorem existingNode_add_error_no_mutation_witness :
    ExistingNode.mk [] [("cpu", 1)] [] [("cpu", 2)] [] [] [] =
      ExistingNode.mk [] [("cpu", 1)] [] [("cpu", 2)] [] [] [] :=
  existingNode_add_error_no_mutation
    ⟨[], false, true, some 0, fun _ => false, [[]], fun _ => [], fun _ _ => some [],
      fun t _ => t, id, id⟩
    "p" [("cpu", 1)]
    ⟨[], [("cpu", 1)], [], [("cpu", 2)], [], [], []⟩
    ⟨[], [("cpu", 1)], [], [("cpu", 2)], [], [], []⟩
    "does not tolerate taints"
    (by decide)

/-- Helper: a non-negative resource list reads non-negative at every key. -/
theorem lookupQ_nonNeg (r : ResourceList) (k : String) (h : nonNegRL r) :
    0 ≤ lookupQ r k := by
  unfold lookupQ
  cases hf : r.find? (fun kv => kv.1 == k) with
  | none => exact le_refl 0
  | some kv => exact h kv (List.mem_of_find?_eq_some hf)

/-- Helper: `upsertRL` preserves non-negativity when the written value is
non-negative. -/
theorem nonNeg_upsertRL (r : ResourceList) (k : String) (v : Quantity)
    (hr : nonNegRL r) (hv : 0 ≤ v) : nonNegRL (upsertRL r k v) := by
  unfold upsertRL
  split
  · intro kv hkv
    rcases List.mem_map.mp hkv with ⟨kv0, hkv0, heq⟩
    by_cases hk : kv0.1 == k
    · simp only [hk, if_pos] at heq
      subst heq
      exact hv
    · simp only [hk, Bool.false_eq_true, if_neg, not_false_iff] at heq
      subst heq
      exact hr kv0 hkv0
  · intro kv hkv
    rcases List.mem_append.mp hkv with h1 | h1
    · exact hr kv h1
    · rcases List.mem_singleton.mp h1 with rfl
      exact hv

/-- Helper: `upsertMax` preserves non-negativity. -/
theorem nonNeg_upsertMax (acc : ResourceList) (kv : String × Quantity)
    (ha : nonNegRL acc) (hv : 0 ≤ kv.2) : nonNegRL (upsertMax acc kv) := by
  unfold upsertMax
  split
  · split
    · exact nonNeg_upsertRL acc kv.1 kv.2 ha hv
    · exact ha
  · intro x hx
    rcases List.mem_append.mp hx with h1 | h1
    · exact ha x h1
    · rcases List.mem_singleton.mp h1 with rfl
      exact hv

/-- Helper: folding `upsertMax` over a non-negative list preserves
non-negativity. -/
theorem nonNeg_foldl_upsertMax (rl : ResourceList) (acc : ResourceList)
    (ha : nonNegRL acc) (hr : nonNegRL rl) : nonNegRL (rl.foldl upsertMax acc) := by
  induction rl generalizing acc with
  | nil => exact ha
  | cons a l ih =>
    exact ih (upsertMax acc a) (nonNeg_upsertMax acc a ha (hr a (List.mem_cons_self a l)))
      (fun kv hkv => hr kv (List.mem_cons_of_mem a hkv))

/-- Helper: `maxResources` over non-negative resource lists is non-negative. -/
theorem nonNeg_maxResources (rls : List ResourceList) (h : ∀ rl ∈ rls, nonNegRL rl) :
    nonNegRL (maxResources rls) := by
  unfold maxResources
  suffices hgen : ∀ acc, nonNegRL acc →
      nonNegRL (rls.foldl (fun acc rl => rl.foldl upsertMax acc) acc) by
    exact hgen [] (fun kv hkv => absurd hkv (List.not_mem_nil kv))
  induction rls with
  | nil => intro acc ha; exact ha
  | cons a l ih =>
    intro acc ha
    exact ih (fun rl hrl => h rl (List.mem_cons_of_mem a hrl))
      (a.foldl upsertMax acc)
      (nonNeg_foldl_upsertMax a acc ha (h a (List.mem_cons_self a l)))

/-- Helper: looking up a key in an entry-wise rewritten resource list. -/
theorem lookupQ_map_entry (f : String × Quantity → Quantity) (r : ResourceList) (k : String) :
    lookupQ (r.map (fun kv => (kv.1, f kv))) k =
      ((r.find? (fun kv => kv.1 == k)).map f).getD 0 := by
  induction r with
  | nil => rfl
  | cons a l ih =>
    by_cases h : (a.1 == k) = true
    · simp [lookupQ, List.find?_cons_of_pos, h]
    · have h1 : ((fun kv => kv.1 == k) ((a.1, f a))) = false := by simpa using h
      have h2 : ((fun kv => kv.1 == k) a) = false := by simpa using h
      simp only [List.map_cons, lookupQ] at ih ⊢
      rw [List.find?_cons_of_neg _ (by simp [h1]), List.find?_cons_of_neg _ (by simp [h2])]
      exact ih

/-- Helper: `subtractMax` never increases any remaining quantity when the
instance-type capacities are non-negative. -/
theorem subtractMax_lookup_le (remaining : ResourceList) (its : List InstanceTypeC)
    (k : String) (h : ∀ it ∈ its, nonNegRL it.capacity) :
    lookupQ (subtractMax remaining its) k ≤ lookupQ remaining k := by
  unfold subtractMax
  split
  · exact le_refl _
  · rw [lookupQ_map_entry]
    have hmax : 0 ≤ lookupQ (maxResources (its.map (·.capacity))) k := by
      refine lookupQ_nonNeg _ _ (nonNeg_maxResources _ ?_)
      intro rl hrl
      rcases List.mem_map.mp hrl with ⟨it, hit, rfl⟩
      exact h it hit
    have hr : ∀ x, remaining.find? (fun kv => kv.1 == k) = x →
        lookupQ remaining k = (x.map (·.2)).getD 0 := by
      intro x hx
      unfold lookupQ
      rw [hx]
      cases x <;> rfl
    cases hf : remaining.find? (fun kv => kv.1 == k) with
    | none =>
      rw [hr none hf]
      exact le_refl 0
    | some kv =>
      have hk : kv.1 = k := by
        have := List.find?_some hf
        simpa using this
      rw [hr (some kv) hf]
      dsimp only [Option.map, Option.getD]
      rw [hk]
      exact sub_le_self kv.2 hmax

/-- Helper: the subtract-max equation at keys present in `remaining`. -/
theorem subtractMax_lookup_eq (remaining : ResourceList) (its : List InstanceTypeC)
    (k : String) (hne : its.isEmpty = false) (hk : hasKey remaining k = true) :
    lookupQ (subtractMax remaining its) k =
      lookupQ remaining k - lookupQ (maxResources (its.map (·.capacity))) k := by
  unfold subtractMax
  rw [if_neg (by simp [hne])]
  rw [lookupQ_map_entry]
  unfold hasKey at hk
  have hr : ∀ x, remaining.find? (fun kv => kv.1 == k) = x →
      lookupQ remaining k = (x.map (·.2)).getD 0 := by
    intro x hx
    unfold lookupQ
    rw [hx]
    cases x <;> rfl
  cases hf : remaining.find? (fun kv => kv.1 == k) with
  | none => rw [hf] at hk; simp at hk
  | some kv =>
    have hkk : kv.1 = k := by
      have := List.find?_some hf
      simpa using this
    rw [hr (some kv) hf]
    dsimp only [Option.map, Option.getD]
    rw [hkk]

/-- Helper: `find?` by a key other than the updated one is unchanged by the
map-update inside `setPool`. -/
theorem find?_setPool_map (m : PoolResources) (p q : String) (rl : ResourceList)
    (hq : q ≠ p) :
    (m.map (fun kv => if kv.1 == p then (p, rl) else kv)).find? (fun kv => kv.1 == q) =
      m.find? (fun kv => kv.1 == q) := by
  induction m with
  | nil => rfl
  | cons a l ih =>
    simp only [List.map_cons]
    by_cases hp : a.1 = p
    · rw [if_pos (by simpa using hp)]
      rw [List.find?_cons_of_neg _ (by simpa using Ne.symm hq)]
      rw [List.find?_cons_of_neg _ (by simpa using hp ▸ Ne.symm hq)]
      exact ih
    · rw [if_neg (by simpa using hp)]
      by_cases hqq : a.1 = q
      · rw [List.find?_cons_of_pos _ (by simpa using hqq),
          List.find?_cons_of_pos _ (by simpa using hqq)]
      · rw [List.find?_cons_of_neg _ (by simpa using hqq),
          List.find?_cons_of_neg _ (by simpa using hqq)]
        exact ih

/-- Helper: reading the written pool back from `setPool`. -/
theorem lookupPool_setPool_same (m : PoolResources) (p : String) (rl : ResourceList) :
    lookupPool (setPool m p rl) p = some rl := by
  unfold setPool
  split
  · rename_i hs
    unfold lookupPool
    induction m with
    | nil => simp at hs
    | cons a l ih =>
      simp only [List.map_cons]
      by_cases hp : a.1 = p
      · rw [if_pos (by simpa using hp)]
        rw [List.find?_cons_of_pos _ (by simp)]
        rfl
      · rw [if_neg (by simpa using hp)]
        rw [List.find?_cons_of_neg _ (by simpa using hp)]
        rw [List.find?_cons_of_neg _ (by simpa using hp)] at hs
        exact ih hs
  · rename_i hs
    unfold lookupPool
    rw [List.find?_append]
    have hnone : m.find? (fun kv => kv.1 == p) = none := by
      cases hx : m.find? (fun kv => kv.1 == p) with
      | none => rfl
      | some a => rw [hx] at hs; simp at hs
    rw [hnone]
    simp [List.find?]

/-- Helper: reading another pool from `setPool` sees the original map. -/
theorem lookupPool_setPool_other (m : PoolResources) (p q : String) (rl : ResourceList)
    (hq : q ≠ p) : lookupPool (setPool m p rl) q = lookupPool m q := by
  unfold setPool
  split
  · unfold lookupPool
    rw [find?_setPool_map m p q rl hq]
  · unfold lookupPool
    rw [List.find?_append]
    have h2 : ([(p, rl)] : PoolResources).find? (fun kv => kv.1 == q) = none := by
      have hpq : (p == q) = false := by simpa using Ne.symm hq
      simp [List.find?, hpq]
    cases hx : m.find? (fun kv => kv.1 == q) with
    | none => rw [h2]; rfl
    | some a => rfl

/-- Helper: the template loop of `Scheduler.add` never increases any pool's
remaining quantity of any resource. -/
theorem schedulerAddLoop_monotone (oc : AddOutcome) (hoc : outcomeCapsNonNeg oc)
    (templates : List MachineTemplateC) (st : SchedState) (p k : String) :
    poolLookupQ (schedulerAddLoop oc templates st).remainingResources p k ≤
      poolLookupQ st.remainingResources p k := by
  induction templates generalizing st with
  | nil => exact le_refl _
  | cons t rest ih =>
    unfold schedulerAddLoop
    cases hl : lookupPool st.remainingResources t.pool with
    | some remaining =>
      by_cases hemp : (filterByRemainingResources t.instanceTypes remaining).isEmpty
      · simp only [hemp, if_pos]
        exact ih st
      · simp only [hemp, Bool.false_eq_true, if_neg, not_false_iff]
        cases hca : oc.claimAdd t.pool (filterByRemainingResources t.instanceTypes remaining) with
        | none => exact ih st
        | some opts =>
          simp only []
          by_cases hpq : p = t.pool
          · subst hpq
            unfold poolLookupQ
            rw [lookupPool_setPool_same, hl]
            simp only [Option.getD_some]
            exact subtractMax_lookup_le remaining opts k (fun it hit => hoc _ _ _ hca it hit)
          · unfold poolLookupQ
            rw [lookupPool_setPool_other _ _ _ _ hpq]
    | none =>
      cases hca : oc.claimAdd t.pool t.instanceTypes with
      | none => exact ih st
      | some opts =>
        simp only []
        by_cases hpq : p = t.pool
        · subst hpq
          unfold poolLookupQ
          rw [lookupPool_setPool_same, hl]
          have hsub : subtractMax [] opts = [] := by
            unfold subtractMax
            split <;> rfl
          rw [hsub]
          exact le_refl 0
        · unfold poolLookupQ
          rw [lookupPool_setPool_other _ _ _ _ hpq]

/-- C4: within a single `Solve` call the per-pool remaining limits never
increase for any resource — each processed pod either leaves them unchanged or,
when a new claim is created, charges the pool with `subtractMax`; and at every
resource key the pool holds, `subtractMax` subtracts exactly the element-wise
maximum, per resource, of the Capacity over the claim's instance-type options. -/
theorem solve_remaining_monotone (templates : List MachineTemplateC)
    (outs : List AddOutcome) (st : SchedState)
    (h : ∀ oc ∈ outs, outcomeCapsNonNeg oc) :
    (∀ p k, poolLookupQ (solveRemaining templates outs st).remainingResources p k ≤
      poolLookupQ st.remainingResources p k) ∧
    (∀ (remaining : ResourceList) (opts : List InstanceTypeC) (k : String),
      opts.isEmpty = false → hasKey remaining k = true →
      lookupQ (subtractMax remaining opts) k =
        lookupQ remaining k - lookupQ (maxResources (opts.map (·.capacity))) k) := by
  constructor
  · intro p k
    unfold solveRemaining
    induction outs generalizing st with
    | nil => exact le_refl _
    | cons oc rest ih =>
      simp only [List.foldl_cons]
      refine le_trans (ih (schedulerAdd templates oc st)
        (fun o ho => h o (List.mem_cons_of_mem oc ho))) ?_
      unfold schedulerAdd
      split
      · exact le_refl _
      · exact schedulerAddLoop_monotone oc (h oc (List.mem_cons_self oc rest)) templates st p k
  · intro remaining opts k hne hk
    exact subtractMax_lookup_eq remaining opts k hne hk

/-- C4 witness: one pod creating one claim from a single template charges the
pool and does not increase its remaining cpu. -/
theorem solve_remaining_monotone_witness :
    poolLookupQ (solveRemaining [⟨"pool", [⟨"it1", [("cpu", 4)]⟩]⟩]
        [⟨false, fun _ _ => some [⟨"it1", [("cpu", 4)]⟩]⟩]
        ⟨[("pool", [("cpu", 10)])], []⟩).remainingResources "pool" "cpu" ≤
      poolLookupQ ([("pool", [("cpu", 10)])] : PoolResources) "pool" "cpu" := by
  refine (solve_remaining_monotone [⟨"pool", [⟨"it1", [("cpu", 4)]⟩]⟩]
    [⟨false, fun _ _ => some [⟨"it1", [("cpu", 4)]⟩]⟩]
    ⟨[("pool", [("cpu", 10)])], []⟩ ?_).1 "pool" "cpu"
  intro oc hoc
  rcases List.mem_singleton.mp hoc with rfl
  intro p its opts heq it hit
  have hopts : opts = [⟨"it1", [("cpu", 4)]⟩] := by
    simpa using heq.symm
  subst hopts
  rcases List.mem_singleton.mp hit with rfl
  intro kv hkv
  rcases List.mem_singleton.mp hkv with rfl
  decide

/-- Helper: `Requirements.Has` agrees with key membership. -/
theorem hasReq_iff_mem (rs : Requirements) (k : String) :
    hasReq rs k = true ↔ k ∈ reqKeys rs := by
  simp [hasReq, List.find?_isSome, reqKeys]

/-- C8: `Intersects` reports a key exactly when it is present on both sides,
its requirements have an empty intersection, and it is not the case that both
the incoming and the existing operator are `NotIn`/`DoesNotExist`; every such
key is reported by `Compatible`, and keys present on only one side are never
reported by the intersection check. -/
theorem compatible_intersection_check (wellKnown : List String) (r q : Requirements) (k : String) :
    (k ∈ intersectsErrKeys r q ↔
      k ∈ reqKeys r ∧ k ∈ reqKeys q ∧
      Requirement.lenZero ((getReq r k).Intersection (getReq q k)) = true ∧
      ¬(opIsNotInOrDNE (getReq q k).Operator = true ∧
        opIsNotInOrDNE (getReq r k).Operator = true)) ∧
    (k ∈ intersectsErrKeys r q → k ∈ compatibleErrKeys wellKnown r q) := by
  constructor
  · simp only [intersectsErrKeys, List.mem_filter, Bool.and_eq_true, hasReq_iff_mem,
      Bool.not_eq_true', Bool.and_eq_false_iff, Bool.not_eq_true]
    constructor
    · rintro ⟨h1, h2, h3, h4⟩
      refine ⟨h1, h2, h3, ?_⟩
      rintro ⟨ha, hb⟩
      rcases h4 with h4 | h4 <;> simp_all
    · rintro ⟨h1, h2, h3, h4⟩
      refine ⟨h1, h2, h3, ?_⟩
      by_cases ha : opIsNotInOrDNE (getReq q k).Operator = true
      · by_cases hb : opIsNotInOrDNE (getReq r k).Operator = true
        · exact absurd ⟨ha, hb⟩ h4
        · exact Or.inr (by simp_all)
      · exact Or.inl (by simp_all)
  · intro h
    simp only [compatibleErrKeys, List.mem_append]
    exact Or.inr h

/-- C8 witness: two `In` requirements on the same key with disjoint value sets
are flagged by the intersection check. -/
theorem compatible_intersection_check_witness :
    "a" ∈ intersectsErrKeys [NewRequirement "a" .opIn ["x"]] [NewRequirement "a" .opIn ["y"]] :=
  (compatible_intersection_check [] [NewRequirement "a" .opIn ["x"]]
    [NewRequirement "a" .opIn ["y"]] "a").1.mpr (by decide)

/-- Helper: each source cpu range contributes exactly the band width times the
percentage, truncated. -/
theorem cpuRangeOverhead_eq_band (c s e n d : Int) (h : s ≤ e) :
    cpuRangeOverhead c s e n d = bandWidth c s e * n / d := by
  unfold cpuRangeOverhead bandWidth
  by_cases h1 : c ≥ s
  · rw [if_pos h1]
    by_cases h2 : c < e
    · rw [if_pos h2]
      have hx : c - s = max (min c e - s) 0 := by
        simp only [Int.min_def, Int.max_def]
        split_ifs <;> omega
      rw [hx]
    · rw [if_neg h2]
      have hx : e - s = max (min c e - s) 0 := by
        simp only [Int.min_def, Int.max_def]
        split_ifs <;> omega
      rw [hx]
  · rw [if_neg h1]
    have hx : max (min c e - s) 0 = 0 := by
      simp only [Int.min_def, Int.max_def]
      split_ifs <;> omega
    rw [hx]
    simp

/-- Helper: the accumulated cpu of the source loop equals the amended
closed-form band formula. -/
theorem kubeReservedCpu_eq_amended (c : Int) : kubeReservedCpu c = cpuAmendedFormula c := by
  unfold kubeReservedCpu cpuAmendedFormula
  rw [cpuRangeOverhead_eq_band c 0 1000 6 100 (by norm_num),
    cpuRangeOverhead_eq_band c 1000 2000 1 100 (by norm_num),
    cpuRangeOverhead_eq_band c 2000 4000 5 1000 (by norm_num),
    cpuRangeOverhead_eq_band c 4000 (2 ^ 31) 25 10000 (by norm_num)]

/-- C3: `ComputeThreshold` returns, for a percentage value `p`, the ceiling of
`C * p / 100` with the special case `p = 100` giving 0 (threshold disabled),
and returns a non-percentage value parsed as-is, unchanged. -/
theorem computeThreshold_matches_claim (base : Quantity) (v : SignalValue) :
    ComputeThreshold base v = thresholdClaimFormula base v := by
  cases v with
  | percent p =>
    by_cases hp : p = 100
    · simp [ComputeThreshold, thresholdClaimFormula, hp]
    · simp only [ComputeThreshold, thresholdClaimFormula, if_neg hp]
      congr 1
      ring
  | absolute q => rfl

/-- C2 counterexample: with intrinsic pods ceiling 10 and `max_pods = 20` set
(no `pods_per_core`), the source `pods` returns 20 — `max_pods` overwrites the
intrinsic ceiling — while the claim's min formula demands 10. -/
theorem pods_claim_counterexample :
    pods 10 8 (some ⟨some 20, none⟩) = 20 ∧
    podsClaimFormula 10 8 ⟨some 20, none⟩ = 10 ∧
    pods 10 8 (some ⟨some 20, none⟩) ≠ podsClaimFormula 10 8 ⟨some 20, none⟩ := by
  exact ⟨by decide, by decide, by decide⟩

/-- C2 (amended): for every instance type and kubelet configuration, the derived
pods capacity equals the intrinsic ceiling when no kubelet configuration is
given; otherwise `max_pods` (when set) replaces the intrinsic ceiling, and the
result is additionally upper-bounded by `pods_per_core * vcpus` when
`pods_per_core > 0`. -/
theorem pods_matches_amended (itPods itCpu : Int) (kc : Option KubeletConfig) :
    pods itPods itCpu kc = match kc with
      | none => itPods
      | some k => podsAmendedFormula itPods itCpu k := by
  cases kc with
  | none => rfl
  | some k =>
    cases hm : k.maxPods <;>
      simp [pods, podsAmendedFormula, hm]

/-- C9 counterexample: at `cpus = 2^32` millicores the source loop caps the last
band at the sentinel `1 << 31`, yielding 5368779m in total, while the claim's
unbounded "0.25% beyond 4000" formula demands 10737488m. -/
theorem kubeReserved_claim_counterexample :
    lookupQ (KubeReserved 110 (2 ^ 32)) "cpu" = 5368779 ∧
    cpuClaimFormula (2 ^ 32) = 10737488 ∧
    lookupQ (KubeReserved 110 (2 ^ 32)) "cpu" ≠ cpuClaimFormula (2 ^ 32) := by
  refine ⟨by decide, by decide, by decide⟩

/-- C9 (amended): for every pods quantity P and non-negative cpu quantity C,
`KubeReserved` returns memory `11 * P + 255` Mi, ephemeral-storage 1 Gi, and
cpu equal to the piecewise sum of 6% of the first 1000 millicores, 1% of the
next 1000, 0.5% of the next 2000, and 0.25% of the millicores between 4000 and
the loop's `2^31` sentinel bound. -/
theorem kubeReserved_matches_amended (p c : Int) (hc : 0 ≤ c) :
    KubeReserved p c =
      [("memory", 11 * p + 255), ("ephemeral-storage", 1), ("cpu", cpuAmendedFormula c)] := by
  unfold KubeReserved
  rw [if_pos hc, kubeReservedCpu_eq_amended]
  rfl

/-- C9 witness: the claim's literal scenario — pods 110, cpus 2000m gives
kube-reserved memory 1465Mi and cpu 70m. -/
theorem kubeReserved_matches_amended_witness :
    (0 : Int) ≤ 2000 ∧
    KubeReserved 110 2000 = [("memory", 1465), ("ephemeral-storage", 1), ("cpu", 70)] :=
  ⟨by decide, by rw [kubeReserved_matches_amended 110 2000 (by decide)]; decide⟩

/-- C5: with no cached create result and a not-yet-launched claim, one launch
reconcile pass — on an insufficient-capacity failure of the cloud `Create` —
deletes the claim, records the offering in the unavailable-offerings cache,
and returns no error; on any other `Create` failure it marks `Launched=false`
with reason `LaunchFailed`, deletes nothing, and returns the error (so the
reconcile retries with backoff); on success it copies labels, annotations,
provider-id, capacity and allocatable onto the claim and sets `Launched=true`. -/
theorem launch_reconcile_outcomes (nc : NodeClaimC) (res : CreateResult)
    (hL : nc.launched ≠ .condTrue) :
    (∀ off, res = .insufficientCapacity off →
      (launchReconcile none res nc).deletedClaim = true ∧
      (launchReconcile none res nc).recordedUnavailable = [off] ∧
      (launchReconcile none res nc).returnsError = false) ∧
    (∀ msg, res = .otherError msg →
      (launchReconcile none res nc).nodeClaim.launched = .condFalse "LaunchFailed" ∧
      (launchReconcile none res nc).returnsError = true ∧
      (launchReconcile none res nc).deletedClaim = false) ∧
    (∀ created, res = .created created →
      (launchReconcile none res nc).nodeClaim.labels =
        assignKV (assignKV created.labels nc.reqLabels) nc.labels ∧
      (launchReconcile none res nc).nodeClaim.annots = assignKV nc.annots created.annots ∧
      (launchReconcile none res nc).nodeClaim.providerID = created.providerID ∧
      (launchReconcile none res nc).nodeClaim.capacity = created.capacity ∧
      (launchReconcile none res nc).nodeClaim.allocatable = created.allocatable ∧
      (launchReconcile none res nc).nodeClaim.launched = .condTrue ∧
      (launchReconcile none res nc).returnsError = false ∧
      (launchReconcile none res nc).deletedClaim = false) := by
  refine ⟨?_, ?_, ?_⟩ <;>
    (intro x hx; subst hx; simp [launchReconcile, PopulateNodeDetails, hL])

/-- C5 witness: a concrete insufficient-capacity outcome. -/
theorem launch_reconcile_outcomes_witness :
    (launchReconcile none (.insufficientCapacity ⟨"inf1.6xlarge", "zone-A", "on-demand"⟩)
      ⟨[], [], [], "", [], [], .unset⟩).deletedClaim = true ∧
    (launchReconcile none (.insufficientCapacity ⟨"inf1.6xlarge", "zone-A", "on-demand"⟩)
      ⟨[], [], [], "", [], [], .unset⟩).recordedUnavailable =
        [⟨"inf1.6xlarge", "zone-A", "on-demand"⟩] ∧
    (launchReconcile none (.insufficientCapacity ⟨"inf1.6xlarge", "zone-A", "on-demand"⟩)
      ⟨[], [], [], "", [], [], .unset⟩).returnsError = false :=
  (launch_reconcile_outcomes ⟨[], [], [], "", [], [], .unset⟩
    (.insufficientCapacity ⟨"inf1.6xlarge", "zone-A", "on-demand"⟩) (by decide)).1
    ⟨"inf1.6xlarge", "zone-A", "on-demand"⟩ rfl

/-- C6 counterexample: the reconciler measures the TTL from the `Launched`
condition's `LastTransitionTime`, not from claim creation — for a claim created
at 0 whose condition last transitioned at 100, at time 130 (2 minutes past
creation) the reconciler requeues instead of deleting, falsifying the claim as
stated. -/
theorem launchTimeout_claim_counterexample :
    ¬ launchTimeoutClaimSpec 130 ⟨0, .present false 100⟩ := by
  unfold launchTimeoutClaimSpec
  decide

/-- C6 (amended): the launch-timeout reconciler deletes a claim exactly when
its `Launched` condition exists, is not true, and at least 2 minutes have
passed since the condition's last transition time (which coincides with claim
creation when the condition was initialized at creation and never reset); a
claim whose `Launched` condition is true is never deleted by this reconciler,
an absent condition is requeued, and before the 2 minutes elapse the claim is
only requeued for the remainder, not deleted. -/
theorem launchTimeout_matches_amended (now : Int) (m : MachineC) :
    (condIsTrue m.launched = true → launchTimeoutReconcile now m.launched = .done) ∧
    (m.launched = .absent → launchTimeoutReconcile now m.launched = .requeue) ∧
    (∀ t, m.launched = .present false t → now - t < launchTTL →
      launchTimeoutReconcile now m.launched = .requeueAfter (launchTTL - (now - t))) ∧
    (∀ t, m.launched = .present false t → now - t ≥ launchTTL →
      launchTimeoutReconcile now m.launched = .deleteClaim) := by
  refine ⟨?_, ?_, ?_, ?_⟩
  · intro h
    cases hm : m.launched with
    | absent => rw [hm] at h; simp [condIsTrue] at h
    | present b t =>
      cases b with
      | false => rw [hm] at h; simp [condIsTrue] at h
      | true => rfl
  · intro h
    rw [h]
    rfl
  · intro t h hlt
    rw [h]
    show (if now - t < launchTTL then ReconcileAction.requeueAfter (launchTTL - (now - t))
      else ReconcileAction.deleteClaim) = _
    rw [if_pos hlt]
  · intro t h hge
    rw [h]
    show (if now - t < launchTTL then ReconcileAction.requeueAfter (launchTTL - (now - t))
      else ReconcileAction.deleteClaim) = _
    rw [if_neg (by omega)]

/-- C6 witness: 150 seconds after the condition's last transition, a
non-launched claim is deleted. -/
theorem launchTimeout_matches_amended_witness :
    launchTimeoutReconcile 250 (.present false 100) = .deleteClaim :=
  (launchTimeout_matches_amended 250 ⟨0, .present false 100⟩).2.2.2 100 rfl (by decide)

/-- C7: the registration reconciler marks `Registered=true` only when the
claim was already registered or `Launched` is true; it never changes the
`Launched` condition, so the invariant `Registered=true implies Launched=true`
is preserved across the pass; and on a duplicate-node lookup a launched,
not-yet-registered claim is marked `MultipleNodesFound`, no node is patched,
and the claim is bound to neither node. -/
theorem registration_reconcile_invariants (claim : RegClaim)
    (lookupRes : NodeLookupResult) (syncFails : Bool) :
    ((registrationReconcile claim lookupRes syncFails).claim.registered = .condTrue →
      claim.registered = .condTrue ∨ claim.launched = .condTrue) ∧
    ((registrationReconcile claim lookupRes syncFails).claim.launched = claim.launched) ∧
    ((claim.registered = .condTrue → claim.launched = .condTrue) →
      (registrationReconcile claim lookupRes syncFails).claim.registered = .condTrue →
      (registrationReconcile claim lookupRes syncFails).claim.launched = .condTrue) ∧
    (claim.registered ≠ .condTrue → claim.launched = .condTrue →
      lookupRes = .duplicateNodes →
      (registrationReconcile claim lookupRes syncFails).claim.registered =
        .condFalse "MultipleNodesFound" ∧
      (registrationReconcile claim lookupRes syncFails).patchedNode = none ∧
      (registrationReconcile claim lookupRes syncFails).claim.nodeName = claim.nodeName) := by
  refine ⟨?_, ?_, ?_, ?_⟩ <;>
    (unfold registrationReconcile; split_ifs <;> cases lookupRes <;> simp_all)

/-- C7 witness: a launched, unregistered claim with a duplicate-node lookup is
marked `MultipleNodesFound` and bound to no node. -/
theorem registration_reconcile_invariants_witness :
    (registrationReconcile ⟨.unset, .condTrue, none⟩ .duplicateNodes false).claim.registered =
      .condFalse "MultipleNodesFound" ∧
    (registrationReconcile ⟨.unset, .condTrue, none⟩ .duplicateNodes false).patchedNode = none ∧
    (registrationReconcile ⟨.unset, .condTrue, none⟩
      .duplicateNodes false).claim.nodeName = none :=
  (registration_reconcile_invariants ⟨.unset, .condTrue, none⟩ .duplicateNodes false).2.2.2
    (by decide) rfl rfl

end KarpSpec
